import Mathlib

/-!
Verification development for the cf-metadata-sys graph metadata service.

The definitions below are a shallow embedding of the TypeScript source of
the `cf-graphdb-api` worker: the permission check (`auth.ts`), the durable
store (D1) with its two tables `nodes` and `edges` keyed by `(id, org_id)`
(`d1/initDb.ts`), the node and edge CRUD handlers (`graph/node.ts`,
`graph/edge.ts`), the depth-limited traversal (`graph/traversals.ts`),
snapshot import/export (`graph/ops.ts`), and the route matcher / dispatcher
(`routes.ts`, `index.ts`).

Modelling conventions:
  * JavaScript strings are Lean `String`s; `String.split` with a one-character
    separator is modelled by `jsSplit` (note `"".split(c) = [""]`).
  * JSON property values are modelled by `PropVal`, which records exactly the
    observations the source makes of a value: whether it is a string (and its
    text), an array of strings (the `vectorize` lists), an object (its
    optional string `description` field and its `JSON.stringify` text), a
    number, a boolean, or null.  A properties bag is an association list.
  * SQL tables are Lean lists of row structures; `WHERE` clauses become list
    filters, `INSERT ... ON CONFLICT` and `INSERT OR REPLACE` become
    replace-or-append operations on the list (physical row order is not
    modelled beyond list order).
  * `Date.now()` / `new Date().toISOString()` / `crypto.randomUUID()` are
    passed in as explicit `timestamp` / `genId` arguments.
  * The KV cache is an association list keyed by the components of the cache
    key (`node:<org>:<id>`, `adj:out:<org>:<id>`).
  * External calls (embedding provider, vector index) are passed in as their
    outcome (`Except`), so a handler is a pure function of the call results.
-/

/-- One step of JavaScript `String.split` with a single-character separator,
working on the character list. `splitChars sep [] = [[]]` mirrors
`"".split(sep) = [""]`. -/
def splitChars (sep : Char) : List Char → List (List Char)
  | [] => [[]]
  | c :: rest =>
    let r := splitChars sep rest
    if c = sep then [] :: r
    else
      match r with
      | [] => [[c]]
      | h :: t => (c :: h) :: t

/-- JavaScript `s.split(sep)` for a one-character separator. -/
def jsSplit (s : String) (sep : Char) : List String :=
  (splitChars sep s.data).map (fun cs => ⟨cs⟩)

/-- Whether `hay` starts with `needle` (helper for the substring test). -/
def leadsWith : List Char → List Char → Bool
  | [], _ => true
  | _ :: _, [] => false
  | n :: ns, h :: hs => n = h && leadsWith ns hs

/-- JavaScript `hay.includes(needle)`: substring containment. -/
def containsSeq (needle : List Char) : List Char → Bool
  | [] => leadsWith needle []
  | c :: rest => leadsWith needle (c :: rest) || containsSeq needle rest

/-- JavaScript `s.includes(t)`. -/
def jsIncludes (s t : String) : Bool :=
  containsSeq t.data s.data

/-- JavaScript `s.startsWith(t)`. -/
def jsStartsWith (s t : String) : Bool :=
  leadsWith t.data s.data

/-- Accumulator pass of `jsSetDedup`. -/
def dedupAux (seen : List String) : List String → List String
  | [] => []
  | x :: xs => if seen.contains x then dedupAux seen xs else x :: dedupAux (x :: seen) xs

/-- `Array.from(new Set(l))`: first occurrences of `l`, in order. -/
def jsSetDedup (l : List String) : List String :=
  dedupAux [] l

/-!
## Authorization (`src/auth.ts`, `hasRequiredLevel` / `hasPermission`)

`hasPermission` receives the token's comma-joined permission string, the org
from the URL path and the level the matched route requires, and returns
whether some held scope grants access.
-/

/-- The level list `['read', 'write', 'audit']` from `hasRequiredLevel`. -/
def levels : List String := ["read", "write", "audit"]

/-- JavaScript `Array.prototype.indexOf` over `levels`: the index, or `-1`. -/
def levelIndexOf (l : String) : Int :=
  match levels.findIdx? (fun x => x == l) with
  | some i => (i : Int)
  | none => -1

/-- `hasRequiredLevel(userLevel, requiredLevel)` from `auth.ts`: `'*'`
satisfies anything, otherwise both levels must appear in `levels` and the
user's index must be at least the required index. -/
def hasRequiredLevel (userLevel requiredLevel : String) : Bool :=
  if userLevel == "*" then true
  else
    let userLevelIndex := levelIndexOf userLevel
    let requiredLevelIndex := levelIndexOf requiredLevel
    if userLevelIndex == -1 || requiredLevelIndex == -1 then false
    else userLevelIndex ≥ requiredLevelIndex

/-- The destructuring `const [scopeOrg, level] = scope.split(':')`: the first
split component, and the second when it exists (`undefined` is `none`). -/
def scopeParts (scope : String) : String × Option String :=
  match jsSplit scope ':' with
  | [] => ("", none)
  | [s] => (s, none)
  | s :: l :: _ => (s, some l)

/-- `hasRequiredLevel` applied to a possibly-`undefined` level: in the source
an absent level reaches `hasRequiredLevel(undefined, ...)`, where
`undefined !== '*'` and `indexOf(undefined) = -1`, so the check is false. -/
def hasRequiredLevelOpt : Option String → String → Bool
  | none, _ => false
  | some l, r => hasRequiredLevel l r

/-- The body of the `for (const scope of permissionScopes)` loop: the three
checks ORed (global wildcard; org wildcard with sufficient level; exact org
with sufficient level). -/
def scopeGrants (scope : String) (orgId requiredLevel : String) : Bool :=
  let p := scopeParts scope
  (p.1 == "*" && p.2 == some "*") ||
  (p.1 == "*" && hasRequiredLevelOpt p.2 requiredLevel) ||
  (p.1 == orgId && hasRequiredLevelOpt p.2 requiredLevel)

/-- `hasPermission(permissions, orgId, requiredLevel)` from `auth.ts`. -/
def hasPermission (permissions orgId requiredLevel : String) : Bool :=
  if permissions == "" then false
  else (jsSplit permissions ',').any (fun scope => scopeGrants scope orgId requiredLevel)

/-- The rank of a permission level under the spec's ordering
`read < write < audit`. -/
def rank : String → Nat
  | "write" => 1
  | "audit" => 2
  | _ => 0

/-- A scope string is well formed when it parses to `org:level` with `level`
one of the three levels or the wildcard. -/
def wellFormedScope (scope : String) : Bool :=
  match (scopeParts scope).2 with
  | some l => levels.contains l || l == "*"
  | none => false

/-!
## Data model (`src/types/graph.ts`, `src/d1/initDb.ts`)

Rows of the two D1 tables, both with composite primary key `(id, org_id)`.
-/

/-- A JSON property value, recorded through the observations the source makes
of it (see the header). -/
inductive PropVal where
  | pstr (s : String)
  | pnum (n : Int)
  | pbool (b : Bool)
  | pnull
  | parr (elems : List String)
  | pobj (desc : Option String) (json : String)
deriving DecidableEq, Repr

/-- A JSON object of properties, as an association list. -/
abbrev Props := List (String × PropVal)

/-- JavaScript property lookup `props[k]` (first binding wins, as in an
object literal read). -/
def propsGet (props : Props) (k : String) : Option PropVal :=
  match props.find? (fun p => p.1 == k) with
  | some p => some p.2
  | none => none

/-- The object spread `{...a, ...b}`: keys of `a` in order, overridden by `b`
where present, followed by the keys of `b` that are not in `a`. -/
def jsObjMerge (a b : Props) : Props :=
  (a.map (fun p =>
    match propsGet b p.1 with
    | some w => (p.1, w)
    | none => p)) ++
  b.filter (fun q => !(a.any (fun p => p.1 == q.1)))

/-- A row of the `nodes` table. -/
structure NodeRow where
  id : String
  org_id : String
  type : String
  properties : Props
  created_at : String
  updated_at : String
  created_by : String
  updated_by : String
  user_agent : String
  client_ip : String
deriving DecidableEq, Repr

/-- A row of the `edges` table. -/
structure EdgeRow where
  id : String
  org_id : String
  from_node : String
  to_node : String
  relationship_type : String
  properties : Props
  created_at : String
  updated_at : String
  created_by : String
  updated_by : String
  user_agent : String
  client_ip : String
deriving DecidableEq, Repr

/-- The durable store: the `nodes` and `edges` tables. -/
structure DB where
  nodes : List NodeRow
  edges : List EdgeRow
deriving DecidableEq, Repr

/-- The empty durable store. -/
def emptyDB : DB := { nodes := [], edges := [] }

/-- `SELECT * FROM nodes WHERE id = ? AND org_id = ?`, `.first()`. -/
def findNode (db : DB) (nodeId orgId : String) : Option NodeRow :=
  db.nodes.find? (fun r => r.id == nodeId && r.org_id == orgId)

/-- `SELECT * FROM edges WHERE id = ? AND org_id = ?`, `.first()`. -/
def findEdge (db : DB) (edgeId orgId : String) : Option EdgeRow :=
  db.edges.find? (fun e => e.id == edgeId && e.org_id == orgId)

/-!
## Node handlers (`src/graph/node.ts`, org-scoped version)
-/

/-- The `POST /:org/nodes` request body (`Partial<GraphNode>`). -/
structure NodeBody where
  id : Option String
  type : Option String
  properties : Option Props
deriving DecidableEq, Repr

/-- The `ON CONFLICT(id, org_id) DO UPDATE SET ...` branch of `createNode`'s
insert: every non-key column, including `created_at` and `created_by`, is set
to the excluded (newly supplied) value. -/
def nodeConflictUpdate (r excluded : NodeRow) : NodeRow :=
  { r with
    type := excluded.type
    properties := excluded.properties
    created_at := excluded.created_at
    updated_at := excluded.updated_at
    created_by := excluded.created_by
    updated_by := excluded.updated_by
    user_agent := excluded.user_agent
    client_ip := excluded.client_ip }

/-- `INSERT INTO nodes ... ON CONFLICT(id, org_id) DO UPDATE SET ...`:
replace the conflicting row in place, or append. -/
def upsertNode (db : DB) (row : NodeRow) : DB :=
  if db.nodes.any (fun r => r.id == row.id && r.org_id == row.org_id) then
    { db with nodes := db.nodes.map (fun r =>
        if r.id == row.id && r.org_id == row.org_id then nodeConflictUpdate r row else r) }
  else
    { db with nodes := db.nodes ++ [row] }

/-- `createNode` (`node.ts`): build the row from the body, the authenticated
principal and the request metadata, then UPSERT on `(id, org_id)`.  Returns
the new durable store and the row echoed in the 200 response. -/
def createNode (db : DB) (orgId userId userAgent clientIp : String) (body : NodeBody)
    (timestamp genId : String) : DB × NodeRow :=
  let nodeId := body.id.getD genId
  let node : NodeRow :=
    { id := nodeId
      org_id := orgId
      type := body.type.getD "default"
      properties := body.properties.getD []
      created_at := timestamp
      updated_at := timestamp
      created_by := userId
      updated_by := userId
      user_agent := userAgent
      client_ip := clientIp }
  (upsertNode db node, node)

/-- `updateNode` (`node.ts`): read the existing row by `(id, org_id)` (404
when absent, returned as `none`); compute the replacement with type defaulted
from the existing row, shallow-merged properties, preserved `created_at` /
`created_by`; then `UPDATE ... WHERE id = ? AND org_id = ?` touching only
`type, properties, updated_at, updated_by, user_agent, client_ip`. -/
def updateNode (db : DB) (orgId nodeId userId userAgent clientIp : String) (body : NodeBody)
    (timestamp : String) : Option (DB × NodeRow) :=
  match findNode db nodeId orgId with
  | none => none
  | some existing =>
    let updatedNode : NodeRow :=
      { id := nodeId
        org_id := orgId
        type := body.type.getD existing.type
        properties := jsObjMerge existing.properties (body.properties.getD [])
        created_at := existing.created_at
        updated_at := timestamp
        created_by := existing.created_by
        updated_by := userId
        user_agent := userAgent
        client_ip := clientIp }
    some
      ({ db with nodes := db.nodes.map (fun r =>
          if r.id == nodeId && r.org_id == orgId then
            { r with
              type := updatedNode.type
              properties := updatedNode.properties
              updated_at := updatedNode.updated_at
              updated_by := updatedNode.updated_by
              user_agent := updatedNode.user_agent
              client_ip := updatedNode.client_ip }
          else r) },
        updatedNode)

/-- The JSON body of a successful `DELETE /:org/nodes/:id` response. -/
structure DeleteNodeResult where
  deleted : String
  org_id : String
  deleted_edges : Nat
deriving DecidableEq, Repr

/-- `deleteNode` (`node.ts`): 404 (`none`) when the node is absent in the
org.  Otherwise `connectedEdges` is the `UNION ALL` of the rows with
`from_node = id AND org_id = ?` and the rows with `to_node = id AND
org_id = ?`; when non-empty, the distinct ids of those rows (a JS `Set`) are
deleted in one `DELETE ... WHERE id IN (...) AND org_id = ?`; then the node
row is deleted.  `deleted_edges` in the response is the length of the
`UNION ALL` result. -/
def deleteNode (db : DB) (orgId nodeId : String) : Option (DB × DeleteNodeResult) :=
  match findNode db nodeId orgId with
  | none => none
  | some _ =>
    let fromRows := db.edges.filter (fun e => e.from_node == nodeId && e.org_id == orgId)
    let toRows := db.edges.filter (fun e => e.to_node == nodeId && e.org_id == orgId)
    let connectedEdges := fromRows ++ toRows
    let edgeIds := jsSetDedup (connectedEdges.map (fun e => e.id))
    let db1 :=
      if connectedEdges.length > 0 then
        { db with edges := db.edges.filter (fun e => !(edgeIds.contains e.id && e.org_id == orgId)) }
      else db
    let db2 := { db1 with nodes := db1.nodes.filter (fun r => !(r.id == nodeId && r.org_id == orgId)) }
    some (db2, { deleted := nodeId, org_id := orgId, deleted_edges := connectedEdges.length })

/-- The KV cache of serialized nodes, keyed by the components of
`node:<org>:<id>`. -/
abbrev KvNodes := List ((String × String) × NodeRow)

/-- `GRAPH_KV.get` on a node cache key. -/
def kvNodeGet (kv : KvNodes) (orgId nodeId : String) : Option NodeRow :=
  match kv.find? (fun p => p.1.1 == orgId && p.1.2 == nodeId) with
  | some p => some p.2
  | none => none

/-- The outcome of `GET /:org/nodes/:id`: a cache hit (`X-Node-Cache: HIT`),
a D1 read cached on the way out (`X-Node-Cache: MISS`), or a 404. -/
inductive GetNodeResp where
  | hit (n : NodeRow)
  | miss (n : NodeRow)
  | notFound
deriving DecidableEq, Repr

/-- `getNode` (`node.ts`): try KV under `node:<org>:<id>`; on a miss fall
back to D1 filtered by `(id, org_id)`, returning 404 when absent and
backfilling KV otherwise. -/
def getNode (kv : KvNodes) (db : DB) (orgId nodeId : String) : GetNodeResp × KvNodes :=
  match kvNodeGet kv orgId nodeId with
  | some n => (.hit n, kv)
  | none =>
    match findNode db nodeId orgId with
    | none => (.notFound, kv)
    | some n => (.miss n, kv ++ [((orgId, nodeId), n)])

/-!
## Edge handlers (`src/graph/edge.ts`)
-/

/-- The `POST /:org/edge` request body (`Partial<GraphEdge>`); `from_node`
and `to_node` are used through non-null assertions in the source, so they are
required here. -/
structure EdgeBody where
  id : Option String
  from_node : String
  to_node : String
  relationship_type : Option String
  properties : Option Props
deriving DecidableEq, Repr

/-- The `ON CONFLICT(id, org_id) DO UPDATE SET ...` branch of `createEdge`'s
insert: unlike the node upsert it does not list `created_at` or `created_by`,
so those keep the existing row's values. -/
def edgeConflictUpdate (r excluded : EdgeRow) : EdgeRow :=
  { r with
    org_id := excluded.org_id
    from_node := excluded.from_node
    to_node := excluded.to_node
    relationship_type := excluded.relationship_type
    properties := excluded.properties
    updated_at := excluded.updated_at
    updated_by := excluded.updated_by
    user_agent := excluded.user_agent
    client_ip := excluded.client_ip }

/-- `INSERT INTO edges ... ON CONFLICT(id, org_id) DO UPDATE SET ...`. -/
def upsertEdge (db : DB) (row : EdgeRow) : DB :=
  if db.edges.any (fun e => e.id == row.id && e.org_id == row.org_id) then
    { db with edges := db.edges.map (fun e =>
        if e.id == row.id && e.org_id == row.org_id then edgeConflictUpdate e row else e) }
  else
    { db with edges := db.edges ++ [row] }

/-- `key.toLowerCase().replace(/_/g, ' ')`. -/
def normalizeKey (k : String) : String :=
  (k.toLower).map (fun c => if c = '_' then ' ' else c)

/-- A model of `JSON.stringify` on an array of strings (string escaping is
not modelled; no claim depends on the rendered text). -/
def jsonOfArr (elems : List String) : String :=
  "[" ++ String.intercalate "," (elems.map (fun s => "\"" ++ s ++ "\"")) ++ "]"

/-- The chunk `createEdge` emits for one vectorize key: present string values
give `"<key>: <value.toLowerCase()>"`; non-null object values (including
arrays) give the string `description` field when present, otherwise their
`JSON.stringify` text, lowercased; numbers, booleans, `null` and absent keys
give nothing. -/
def chunkForKey (properties : Props) (key : String) : Option String :=
  match propsGet properties key with
  | some (.pstr v) => some (normalizeKey key ++ ": " ++ v.toLower)
  | some (.pobj desc json) => some (normalizeKey key ++ ": " ++ (desc.getD json).toLower)
  | some (.parr elems) => some (normalizeKey key ++ ": " ++ (jsonOfArr elems).toLower)
  | some (.pnum _) => none
  | some (.pbool _) => none
  | some .pnull => none
  | none => none

/-- `vectorKeys`: `properties.vectorize` when it is an array, else `[]`. -/
def vectorKeys (properties : Props) : List String :=
  match propsGet properties "vectorize" with
  | some (.parr keys) => keys
  | _ => []

/-- The `vectorChunks` accumulated by `createEdge`. -/
def buildVectorChunks (properties : Props) : List String :=
  (vectorKeys properties).filterMap (chunkForKey properties)

/-- The payload stored with a vector-index point for an edge. -/
structure VxPayload where
  edge_id : String
  from_node : String
  to_node : String
  org_id : String
  relationship_type : String
deriving DecidableEq, Repr

/-- A point of the external vector index, keyed by edge id. -/
structure VxPoint where
  id : String
  vector : List Int
  payload : VxPayload
deriving DecidableEq, Repr

/-- The vector-index upsert: replace the point with the same id, or append. -/
def vxUpsert (vx : List VxPoint) (pt : VxPoint) : List VxPoint :=
  if vx.any (fun q => q.id == pt.id) then
    vx.map (fun q => if q.id == pt.id then pt else q)
  else vx ++ [pt]

/-- The observable outcome of `createEdge`: HTTP status, the durable store,
the vector index, and the edge row echoed on success. -/
structure CreateEdgeResult where
  status : Nat
  db : DB
  vx : List VxPoint
  response : Option EdgeRow
deriving DecidableEq, Repr

/-- `createEdge` (`edge.ts`): build the edge row, UPSERT it into D1, then —
only when the vectorize chunks are non-empty — call the embedding provider
and the vector index.  The whole body is inside one `try`: any failure after
the D1 write is caught and surfaced as a 500 `{error}` response without
touching the already-committed D1 row.  `epRes` is the outcome of the
embedding call and `vxOk` the outcome of the index upsert. -/
def createEdge (db : DB) (vx : List VxPoint) (orgId userId userAgent clientIp : String)
    (body : EdgeBody) (timestamp genId : String)
    (epRes : Except String (List Int)) (vxOk : Bool) : CreateEdgeResult :=
  let edgeId := body.id.getD genId
  let edge : EdgeRow :=
    { id := edgeId
      org_id := orgId
      from_node := body.from_node
      to_node := body.to_node
      relationship_type := body.relationship_type.getD "related"
      properties := body.properties.getD []
      created_at := timestamp
      updated_at := timestamp
      created_by := userId
      updated_by := userId
      user_agent := userAgent
      client_ip := clientIp }
  let db1 := upsertEdge db edge
  let vectorChunks := buildVectorChunks edge.properties
  if vectorChunks.length > 0 then
    match epRes with
    | .error _ => { status := 500, db := db1, vx := vx, response := none }
    | .ok embedding =>
      if vxOk then
        { status := 200
          db := db1
          vx := vxUpsert vx
            { id := edgeId
              vector := embedding
              payload :=
                { edge_id := edgeId
                  from_node := edge.from_node
                  to_node := edge.to_node
                  org_id := orgId
                  relationship_type := edge.relationship_type } }
          response := some edge }
      else { status := 500, db := db1, vx := vx, response := none }
  else { status := 200, db := db1, vx := vx, response := some edge }

/-- The outcome of `GET /:org/edge/:id`: the row, or the 404 body
`{error: 'Edge not found', edgeId, orgId}`. -/
inductive GetEdgeResp where
  | ok (e : EdgeRow)
  | notFound (edgeId orgId : String)
deriving DecidableEq, Repr

/-- The HTTP status of a `GET /:org/edge/:id` response. -/
def GetEdgeResp.status : GetEdgeResp → Nat
  | .ok _ => 200
  | .notFound _ _ => 404

/-- `getEdge` (`edge.ts`): `SELECT * FROM edges WHERE id = ? AND org_id = ?`,
404 when absent. -/
def getEdge (db : DB) (orgId edgeId : String) : GetEdgeResp :=
  match findEdge db edgeId orgId with
  | none => .notFound edgeId orgId
  | some e => .ok e

/-- The `PUT|PATCH /:org/edge/:id` body. -/
structure EdgeUpdateBody where
  relationship_type : Option String
  properties : Option Props
deriving DecidableEq, Repr

/-- `updateEdge` (`edge.ts`): require the edge in this org (404 → `none`);
replace `relationship_type` when supplied, shallow-merge `properties` when
supplied; `UPDATE` touches only `relationship_type, properties, updated_at,
updated_by, user_agent, client_ip` under `WHERE id = ? AND org_id = ?`. -/
def updateEdge (db : DB) (orgId edgeId userId userAgent clientIp : String)
    (body : EdgeUpdateBody) (timestamp : String) : Option (DB × EdgeRow) :=
  match findEdge db edgeId orgId with
  | none => none
  | some existingEdge =>
    let relationshipType := body.relationship_type.getD existingEdge.relationship_type
    let properties :=
      match body.properties with
      | some p => jsObjMerge existingEdge.properties p
      | none => existingEdge.properties
    some
      ({ db with edges := db.edges.map (fun e =>
          if e.id == edgeId && e.org_id == orgId then
            { e with
              relationship_type := relationshipType
              properties := properties
              updated_at := timestamp
              updated_by := userId
              user_agent := userAgent
              client_ip := clientIp }
          else e) },
        { existingEdge with
          relationship_type := relationshipType
          properties := properties
          updated_at := timestamp
          updated_by := userId
          user_agent := userAgent
          client_ip := clientIp })

/-- `deleteEdge` (`edge.ts`): require the edge in this org (404 → `none`);
`DELETE FROM edges WHERE id = ? AND org_id = ?`. -/
def deleteEdge (db : DB) (orgId edgeId : String) : Option DB :=
  match findEdge db edgeId orgId with
  | none => none
  | some _ =>
    some { db with edges := db.edges.filter (fun e => !(e.id == edgeId && e.org_id == orgId)) }

/-!
## Snapshot import / export (`src/graph/ops.ts`, org-scoped version)
-/

/-- JavaScript `v || dflt` for a string-or-undefined value: `undefined` and
the empty string both fall back to the default. -/
def jsOrDefault (v : Option String) (dflt : String) : String :=
  match v with
  | some s => if s == "" then dflt else s
  | none => dflt

/-- A node record of an import body: `org_id` and the principal-derived audit
fields may be absent (they are then filled from the path / request), while
`id`, `type`, `properties`, `created_at` and `updated_at` are taken as
supplied. -/
structure ImportNode where
  id : String
  org_id : Option String
  type : String
  properties : Props
  created_at : String
  updated_at : String
  created_by : Option String
  updated_by : Option String
  user_agent : Option String
  client_ip : Option String
deriving DecidableEq, Repr

/-- An edge record of an import body; `updated_at` defaults to `created_at`
when absent. -/
structure ImportEdge where
  id : String
  org_id : Option String
  from_node : String
  to_node : String
  relationship_type : String
  properties : Props
  created_at : String
  updated_at : Option String
  created_by : Option String
  updated_by : Option String
  user_agent : Option String
  client_ip : Option String
deriving DecidableEq, Repr

/-- The fill-in step of `importMetadata` for one node:
`node.org_id = node.org_id || orgId` and the same `||` defaulting for the
audit provenance fields. -/
def fillImportNode (n : ImportNode) (orgId userId userAgent clientIp : String) : NodeRow :=
  { id := n.id
    org_id := jsOrDefault n.org_id orgId
    type := n.type
    properties := n.properties
    created_at := n.created_at
    updated_at := n.updated_at
    created_by := jsOrDefault n.created_by userId
    updated_by := jsOrDefault n.updated_by userId
    user_agent := jsOrDefault n.user_agent userAgent
    client_ip := jsOrDefault n.client_ip clientIp }

/-- The fill-in step of `importMetadata` for one edge, including
`edge.updated_at = edge.updated_at || edge.created_at`. -/
def fillImportEdge (e : ImportEdge) (orgId userId userAgent clientIp : String) : EdgeRow :=
  { id := e.id
    org_id := jsOrDefault e.org_id orgId
    from_node := e.from_node
    to_node := e.to_node
    relationship_type := e.relationship_type
    properties := e.properties
    created_at := e.created_at
    updated_at := jsOrDefault e.updated_at e.created_at
    created_by := jsOrDefault e.created_by userId
    updated_by := jsOrDefault e.updated_by userId
    user_agent := jsOrDefault e.user_agent userAgent
    client_ip := jsOrDefault e.client_ip clientIp }

/-- `INSERT OR REPLACE INTO nodes ...`: the whole row replaces a row with the
same `(id, org_id)`, or is appended. -/
def insertOrReplaceNode (db : DB) (row : NodeRow) : DB :=
  if db.nodes.any (fun r => r.id == row.id && r.org_id == row.org_id) then
    { db with nodes := db.nodes.map (fun r =>
        if r.id == row.id && r.org_id == row.org_id then row else r) }
  else
    { db with nodes := db.nodes ++ [row] }

/-- `INSERT OR REPLACE INTO edges ...`. -/
def insertOrReplaceEdge (db : DB) (row : EdgeRow) : DB :=
  if db.edges.any (fun e => e.id == row.id && e.org_id == row.org_id) then
    { db with edges := db.edges.map (fun e =>
        if e.id == row.id && e.org_id == row.org_id then row else e) }
  else
    { db with edges := db.edges ++ [row] }

/-- The JSON body of a successful `POST /:org/metadata/import` response. -/
structure ImportResult where
  org_id : String
  imported_nodes : Nat
  imported_edges : Nat
  imported_by : String
deriving DecidableEq, Repr

/-- `importMetadata` (`ops.ts`): for each node then each edge of the body,
fill the absent org/audit fields from the path and the request, and
`INSERT OR REPLACE` on `(id, org_id)`.  The reported counts are the input
list lengths. -/
def importMetadata (db : DB) (orgId userId userAgent clientIp : String)
    (nodes : List ImportNode) (edges : List ImportEdge) : DB × ImportResult :=
  let db1 := nodes.foldl (fun acc n => insertOrReplaceNode acc (fillImportNode n orgId userId userAgent clientIp)) db
  let db2 := edges.foldl (fun acc e => insertOrReplaceEdge acc (fillImportEdge e orgId userId userAgent clientIp)) db1
  (db2, { org_id := orgId, imported_nodes := nodes.length, imported_edges := edges.length, imported_by := userId })

/-- The snapshot body emitted by `GET /:org/metadata/export` (and stored in
the object store). -/
structure ExportData where
  timestamp : String
  version : String
  org_id : String
  nodes : List NodeRow
  edges : List EdgeRow
deriving DecidableEq, Repr

/-- `exportMetadata` (`ops.ts`): all nodes and edges with `org_id = :org`,
with `version: '1.0'`. -/
def exportMetadata (db : DB) (orgId : String) (timestamp : String) : ExportData :=
  { timestamp := timestamp
    version := "1.0"
    org_id := orgId
    nodes := db.nodes.filter (fun r => r.org_id == orgId)
    edges := db.edges.filter (fun e => e.org_id == orgId) }

/-- Re-reading an exported node from the snapshot JSON: every field is
present. -/
def nodeRowToImport (r : NodeRow) : ImportNode :=
  { id := r.id
    org_id := some r.org_id
    type := r.type
    properties := r.properties
    created_at := r.created_at
    updated_at := r.updated_at
    created_by := some r.created_by
    updated_by := some r.updated_by
    user_agent := some r.user_agent
    client_ip := some r.client_ip }

/-- Re-reading an exported edge from the snapshot JSON. -/
def edgeRowToImport (e : EdgeRow) : ImportEdge :=
  { id := e.id
    org_id := some e.org_id
    from_node := e.from_node
    to_node := e.to_node
    relationship_type := e.relationship_type
    properties := e.properties
    created_at := e.created_at
    updated_at := some e.updated_at
    created_by := some e.created_by
    updated_by := some e.updated_by
    user_agent := some e.user_agent
    client_ip := some e.client_ip }

/-- `COUNT(*) FROM nodes WHERE org_id = ?`. -/
def countNodes (db : DB) (orgId : String) : Nat :=
  (db.nodes.filter (fun r => r.org_id == orgId)).length

/-- `COUNT(*) FROM edges WHERE org_id = ?`. -/
def countEdges (db : DB) (orgId : String) : Nat :=
  (db.edges.filter (fun e => e.org_id == orgId)).length

/-!
## Traversal (`src/graph/traversals.ts`)

`traverseNode` discovers edges through the KV adjacency cache
`adj:out:<org>:<node>`: for each cached `{node, type}` entry passing the
relationship-type filter it runs one D1 query `SELECT * FROM edges WHERE
from_node = ? AND to_node = ? AND relationship_type = ? AND org_id = ?`, and
then recurses on every adjacent node (whether or not the edge row was
found).  The recursion over the adjacent nodes is modelled sequentially,
in list order.
-/

/-- One entry of a cached adjacency list: `{node, type}`. -/
structure AdjEntry where
  node : String
  type : String
deriving DecidableEq, Repr

/-- The KV adjacency cache, keyed by the components of
`adj:out:<org>:<node>`. -/
abbrev KvAdj := List ((String × String) × List AdjEntry)

/-- `GRAPH_KV.get` on an adjacency key. -/
def kvAdjGet (kv : KvAdj) (orgId nodeId : String) : Option (List AdjEntry) :=
  match kv.find? (fun p => p.1.1 == orgId && p.1.2 == nodeId) with
  | some p => some p.2
  | none => none

/-- The mutable traversal state: the `visited` set and the `result`
collections. -/
structure TravAcc where
  visited : List String
  nodes : List NodeRow
  edges : List EdgeRow
  paths : List (List String)
deriving DecidableEq, Repr

/-- The D1 edge lookup issued per adjacency entry. -/
def traverseEdgeLookup (db : DB) (nodeId : String) (a : AdjEntry) (orgId : String) : Option EdgeRow :=
  db.edges.find? (fun e =>
    e.from_node == nodeId && e.to_node == a.node && e.relationship_type == a.type && e.org_id == orgId)

mutual
/-- `traverseNode` (`traversals.ts`): stop (emitting the current path when it
has more than one element) at the depth limit or on a visited node; otherwise
mark visited, collect the node row from D1, read the adjacency list from KV
(nothing happens when the key is absent), filter it by the relationship-type
inclusion list, run the per-entry D1 edge lookups, append the found edges,
and recurse on each adjacent node with the extended path. -/
def traverseNode (db : DB) (kv : KvAdj) (nodeId : String) (currentDepth maxDepth : Nat)
    (st : TravAcc) (currentPath : List String) (orgId : String)
    (relationshipTypes : Option (List String)) : TravAcc :=
  if currentDepth ≥ maxDepth ∨ st.visited.contains nodeId then
    if currentPath.length > 1 then { st with paths := st.paths ++ [currentPath] } else st
  else
    let st1 := { st with visited := st.visited ++ [nodeId] }
    let st2 :=
      match findNode db nodeId orgId with
      | some n => { st1 with nodes := st1.nodes ++ [n] }
      | none => st1
    match kvAdjGet kv orgId nodeId with
    | none => st2
    | some adjacentNodes =>
      let kept := adjacentNodes.filter (fun a =>
        match relationshipTypes with
        | some ts => ts.contains a.type
        | none => true)
      let edgeResults := kept.map (fun a => (traverseEdgeLookup db nodeId a orgId, a.node))
      let st3 := { st2 with edges := st2.edges ++ edgeResults.filterMap (fun p => p.1) }
      traverseChildren db kv (edgeResults.map (fun p => p.2)) (currentDepth + 1) maxDepth st3
        currentPath orgId relationshipTypes
termination_by (maxDepth + 1 - currentDepth, 0)
decreasing_by simp_wf; omega

/-- The recursion of `traverseNode` over the adjacent nodes of one level. -/
def traverseChildren (db : DB) (kv : KvAdj) (children : List String) (childDepth maxDepth : Nat)
    (st : TravAcc) (currentPath : List String) (orgId : String)
    (relationshipTypes : Option (List String)) : TravAcc :=
  match children with
  | [] => st
  | c :: rest =>
    let st1 := traverseNode db kv c childDepth maxDepth st (currentPath ++ [c]) orgId relationshipTypes
    traverseChildren db kv rest childDepth maxDepth st1 currentPath orgId relationshipTypes
termination_by (maxDepth + 1 - childDepth, children.length + 1)
decreasing_by
  · simp_wf; omega
  · simp_wf; omega
end

/-- `traverseGraph` (`traversals.ts`): `maxDepth = body.max_depth ?? 3`,
empty visited set and result, initial path `[start_node]` at depth 0. -/
def traverseGraph (db : DB) (kv : KvAdj) (orgId startNode : String)
    (maxDepth? : Option Nat) (relationshipTypes : Option (List String)) : TravAcc :=
  let maxDepth := maxDepth?.getD 3
  traverseNode db kv startNode 0 maxDepth
    { visited := [], nodes := [], edges := [], paths := [] }
    [startNode] orgId relationshipTypes

/-- The edges of the durable store leaving `nodeId` inside `orgId`,
restricted to an optional relationship-type inclusion list — the direct
query the specification mandates for traversal edge discovery. -/
def dsOutgoingEdges (db : DB) (nodeId orgId : String)
    (relationshipTypes : Option (List String)) : List EdgeRow :=
  db.edges.filter (fun e =>
    e.from_node == nodeId && e.org_id == orgId &&
      (match relationshipTypes with
       | some ts => ts.contains e.relationship_type
       | none => true))

/-!
## Routing and dispatch (`src/routes.ts`, `src/index.ts`, `src/auth.ts`)

`routeMap` is the literal of `routes.ts`: each pattern with its method table
`method → requiredPermission` (the handler itself is not needed here), in the
literal's key order, which `Object.keys` preserves.
-/

/-- The `routeMap` literal of `routes.ts`. -/
def routeMap : List (String × List (String × String)) :=
  [ ("/:orgId/nodes", [("POST", "write"), ("GET", "read")])
  , ("/:orgId/nodes/:id", [("GET", "read"), ("PUT", "write"), ("DELETE", "write")])
  , ("/:orgId/edges", [("GET", "read")])
  , ("/:orgId/edge/:id", [("GET", "read"), ("PUT", "write"), ("PATCH", "write"), ("DELETE", "write")])
  , ("/:orgId/edge", [("POST", "write")])
  , ("/:orgId/query", [("POST", "read")])
  , ("/:orgId/traverse", [("POST", "read")])
  , ("/:orgId/metadata/export", [("GET", "read")])
  , ("/:orgId/metadata/import", [("POST", "write")]) ]

/-- `routeMap[pattern][method]`, yielding the required permission level. -/
def routeLookup (pattern method : String) : Option String :=
  match routeMap.find? (fun p => p.1 == pattern) with
  | none => none
  | some entry =>
    match entry.2.find? (fun m => m.1 == method) with
    | none => none
    | some m => some m.2

/-- The part-compare loop of `matchRoute` (`compareParts` in `routes.ts`):
parameter segments (starting with `:`) always match; literal segments must
be present and equal. -/
def compareParts : List String → List String → Bool
  | [], _ => true
  | p :: ps, [] => jsStartsWith p ":" && compareParts ps []
  | p :: ps, q :: qs => (jsStartsWith p ":" || p == q) && compareParts ps qs

/-- The `for (const pattern of Object.keys(routeMap))` loop of `matchRoute`. -/
def matchRouteLoop (path : String) : List (String × List (String × String)) →
    Option (String × List (String × String))
  | [] => none
  | (pattern, _) :: rest =>
    if jsIncludes pattern ":orgId" && jsStartsWith path "/" then
      let parts := jsSplit path '/'
      if parts.length ≥ 2 then
        let orgId := parts.getD 1 ""
        let patternParts := jsSplit pattern '/'
        let pathParts := jsSplit path '/'
        if patternParts.length == pathParts.length && compareParts patternParts pathParts then
          if jsIncludes pattern ":id" && parts.length ≥ 4 then
            some (pattern, [("orgId", orgId), ("id", parts.getD 3 "")])
          else
            some (pattern, [("orgId", orgId)])
        else matchRouteLoop path rest
      else matchRouteLoop path rest
    else matchRouteLoop path rest

/-- `matchRoute` (`routes.ts`): a direct hit of `routeMap[path]`, otherwise
the pattern loop. -/
def matchRoute (path : String) : Option (String × List (String × String)) :=
  if (routeMap.find? (fun p => p.1 == path)).isSome then some (path, [])
  else matchRouteLoop path routeMap

/-- `handleRequest` (`index.ts`): match the path; when the matched pattern
declares a handler for the method, dispatch to the authentication middleware
and the handler; otherwise return `undefined` (`none`), which the fetch entry
point turns into the 404 response. -/
def handleRequest (path method : String) : Option (String × List (String × String) × String) :=
  match matchRoute path with
  | none => none
  | some (pattern, params) =>
    match routeLookup pattern method with
    | none => none
    | some requiredPermission => some (pattern, params, requiredPermission)

/-- The routing outcome of the worker's `fetch` entry point: either the
literal `404 Not Found` response (no route matched, or `handleRequest`
returned `undefined`), or dispatch into `authenticate` + handler. -/
inductive FetchOutcome where
  | notFoundResp
  | dispatched (pattern : String) (params : List (String × String)) (requiredPermission : String)
deriving DecidableEq, Repr

/-- The `fetch` entry point's route handling. -/
def fetchRoute (path method : String) : FetchOutcome :=
  match handleRequest path method with
  | none => .notFoundResp
  | some (pattern, params, perm) => .dispatched pattern params perm

/-- The HTTP status the `fetch` entry point has already determined:
`404` for `FetchOutcome.notFoundResp`; a dispatched request's status is
decided later by `authenticate` and the handler. -/
def FetchOutcome.earlyStatus : FetchOutcome → Option Nat
  | .notFoundResp => some 404
  | .dispatched _ _ _ => none

/-- The routing decision inside `authenticate` (`auth.ts`), reached only with
a valid token: re-match the path, answer 404 on no match, 405 on a matched
pattern without a handler for the method, and otherwise proceed to the
permission check with the route's required level. -/
inductive AuthRouteDecision where
  | authNotFound
  | authMethodNotAllowed
  | proceed (requiredPermission : String)
deriving DecidableEq, Repr

/-- The `matchRoute` / `routeMap[pattern][method]` steps of `authenticate`. -/
def authRouteCheck (path method : String) : AuthRouteDecision :=
  match matchRoute path with
  | none => .authNotFound
  | some (pattern, _) =>
    match routeLookup pattern method with
    | none => .authMethodNotAllowed
    | some requiredPermission => .proceed requiredPermission

/-!
## Concrete fixtures used by the witness theorems
-/

/-- A node of org `a` with id `n1`. -/
def rowA : NodeRow :=
  { id := "n1", org_id := "a", type := "t", properties := [], created_at := "T0",
    updated_at := "T0", created_by := "carol", updated_by := "carol",
    user_agent := "ua", client_ip := "ip" }

/-- A node of org `b` with the same id `n1`. -/
def rowB : NodeRow := { rowA with org_id := "b" }

/-- An edge of org `b` with id `e1`. -/
def edgeB : EdgeRow :=
  { id := "e1", org_id := "b", from_node := "n1", to_node := "n1",
    relationship_type := "r", properties := [], created_at := "T0", updated_at := "T0",
    created_by := "carol", updated_by := "carol", user_agent := "ua", client_ip := "ip" }

/-- Two orgs sharing the id `n1`, with an edge only in org `b`. -/
def isoDB : DB := { nodes := [rowA, rowB], edges := [edgeB] }

/-- A self-loop on `n1` inside org `a`. -/
def loopEdge : EdgeRow := { edgeB with id := "e2", org_id := "a" }

/-- Org `a` with one node carrying one self-loop. -/
def loopDB : DB := { nodes := [rowA], edges := [loopEdge] }

/-- An edge `n1 → n2` inside org `a`. -/
def travEdge : EdgeRow := { edgeB with id := "e3", org_id := "a", to_node := "n2" }

/-- A durable store for the traversal examples. -/
def travDB : DB := { nodes := [rowA], edges := [travEdge] }

/-- An adjacency cache listing `n2` as the one outgoing neighbour of `n1`. -/
def travKv : KvAdj := [(("a", "n1"), [{ node := "n2", type := "r" }])]

/-- An edge-create body requesting vectorization of its `name` property. -/
def vecBody : EdgeBody :=
  { id := some "e4", from_node := "n1", to_node := "n2", relationship_type := none,
    properties := some [("vectorize", .parr ["name"]), ("name", .pstr "Hello_World")] }

/-!
## Theorems
-/

section AuthClaims

/-- For a well-formed level and required level, `hasRequiredLevel` is the
spec's condition: wildcard, or at least the required rank under
`read < write < audit`. -/
lemma hasRequiredLevel_iff_rank (l requiredLevel : String)
    (hl : l ∈ levels ∨ l = "*") (hreq : requiredLevel ∈ levels) :
    hasRequiredLevel l requiredLevel = true ↔
      (l = "*" ∨ rank requiredLevel ≤ rank l) := by
  have hreq' : requiredLevel = "read" ∨ requiredLevel = "write" ∨ requiredLevel = "audit" := by
    simpa [levels] using hreq
  have hl' : l = "read" ∨ l = "write" ∨ l = "audit" ∨ l = "*" := by
    rcases hl with h | h
    · have : l = "read" ∨ l = "write" ∨ l = "audit" := by simpa [levels] using h
      tauto
    · tauto
  rcases hl' with h | h | h | h <;> rcases hreq' with h2 | h2 | h2 <;>
    subst h <;> subst h2 <;> decide

/-- For a well-formed scope, the loop body `scopeGrants` is the spec's
per-scope condition. -/
lemma scopeGrants_iff_spec (scope orgId requiredLevel : String)
    (hwf : wellFormedScope scope = true) (hreq : requiredLevel ∈ levels) :
    scopeGrants scope orgId requiredLevel = true ↔
      (((scopeParts scope).1 = orgId ∨ (scopeParts scope).1 = "*") ∧
        ((scopeParts scope).2 = some "*" ∨
          ∃ l, (scopeParts scope).2 = some l ∧ rank requiredLevel ≤ rank l)) := by
  unfold wellFormedScope at hwf
  rcases hsp : scopeParts scope with ⟨s, lo⟩
  rw [hsp] at hwf
  rcases lo with _ | l
  · simp at hwf
  · have hl : l ∈ levels ∨ l = "*" := by
      have hwf' : levels.contains l = true ∨ (l == "*") = true := by simpa using hwf
      rcases hwf' with h | h
      · exact Or.inl (by simpa using h)
      · exact Or.inr (by simpa using h)
    have hrl := hasRequiredLevel_iff_rank l requiredLevel hl hreq
    simp only [scopeGrants, hsp, hasRequiredLevelOpt, Bool.or_eq_true, Bool.and_eq_true,
      beq_iff_eq, Option.some.injEq, exists_eq_left']
    rw [hrl]
    tauto

/-- C2 — Authorization decision: for every permissions string made of
well-formed `org:level` scopes and every required level in
`{read, write, audit}`, `hasPermission` passes iff some held scope `(s, l)`
satisfies `(s = orgId ∨ s = "*") ∧ (l = "*" ∨ rank l ≥ rank requiredLevel)`
under the ordering `read < write < audit` (a failing check is answered with
403 by `authenticate`). -/
theorem hasPermission_iff_spec (permissions orgId requiredLevel : String)
    (hreq : requiredLevel ∈ levels)
    (hwf : ∀ scope ∈ jsSplit permissions ',', wellFormedScope scope = true) :
    hasPermission permissions orgId requiredLevel = true ↔
      ∃ scope ∈ jsSplit permissions ',',
        (((scopeParts scope).1 = orgId ∨ (scopeParts scope).1 = "*") ∧
          ((scopeParts scope).2 = some "*" ∨
            ∃ l, (scopeParts scope).2 = some l ∧ rank requiredLevel ≤ rank l)) := by
  have hne : permissions ≠ "" := by
    intro h
    subst h
    have := hwf "" (by decide)
    simp [wellFormedScope, scopeParts, jsSplit, splitChars] at this
  unfold hasPermission
  rw [if_neg (by simpa using hne)]
  rw [List.any_eq_true]
  constructor
  · rintro ⟨scope, hmem, hgr⟩
    exact ⟨scope, hmem, (scopeGrants_iff_spec scope orgId requiredLevel (hwf scope hmem) hreq).mp hgr⟩
  · rintro ⟨scope, hmem, hspec⟩
    exact ⟨scope, hmem, (scopeGrants_iff_spec scope orgId requiredLevel (hwf scope hmem) hreq).mpr hspec⟩

/-- Witness for C2 at a concrete input: the token `acme:write,beta:read`
grants `(acme, read)`. -/
theorem hasPermission_iff_spec_witness :
    hasPermission "acme:write,beta:read" "acme" "read" = true :=
  (hasPermission_iff_spec "acme:write,beta:read" "acme" "read" (by decide) (by decide)).mpr
    ⟨"acme:write", by decide, by decide, Or.inr ⟨"write", by decide, by decide⟩⟩

end AuthClaims

section IsolationClaims

/-- Mapping a function that fixes the selected elements and never changes
selection leaves a filter unchanged. -/
lemma filter_map_eq_of_fix {α : Type} (p : α → Bool) (f : α → α) (l : List α)
    (h : ∀ a ∈ l, p (f a) = p a ∧ (p a = true → f a = a)) :
    (l.map f).filter p = l.filter p := by
  induction l with
  | nil => rfl
  | cons x xs ih =>
    have hx := h x (by simp)
    have ih' := ih (fun a ha => h a (by simp [ha]))
    simp only [List.map_cons, List.filter_cons, hx.1]
    cases hpx : p x with
    | true => simp [hx.2 hpx, ih']
    | false => simp [ih']

/-- Pre-filtering by a predicate that holds on every selected element leaves
a filter unchanged. -/
lemma filter_filter_of_imp {α : Type} (p q : α → Bool) (l : List α)
    (h : ∀ a ∈ l, p a = true → q a = true) :
    (l.filter q).filter p = l.filter p := by
  induction l with
  | nil => rfl
  | cons x xs ih =>
    have ih' := ih (fun a ha => h a (by simp [ha]))
    have hx := h x (by simp)
    cases hqx : q x with
    | true =>
      cases hpx : p x with
      | true => simp [List.filter_cons, hqx, hpx, ih']
      | false => simp [List.filter_cons, hqx, hpx, ih']
    | false =>
      cases hpx : p x with
      | true => exact absurd (hx hpx) (by simp [hqx])
      | false => simp [List.filter_cons, hqx, hpx, ih']

/-- C1 — Tenant isolation: node and edge updates and deletes performed with
org `A` in the URL path leave every durable-store row of a distinct org `B`
unchanged (the other table is untouched entirely), and reading a node or
edge id through org `A`'s path when no such record exists in org `A` yields
the same 404 outcome as reading it against an empty store — even when a
record with that id exists in org `B`. -/
theorem tenant_isolation_ops (db : DB) (kv : KvNodes) (A B : String) (hAB : A ≠ B)
    (nodeId edgeId userId userAgent clientIp ts : String)
    (nbody : NodeBody) (ebody : EdgeUpdateBody) :
    (∀ db' row, updateNode db A nodeId userId userAgent clientIp nbody ts = some (db', row) →
      db'.nodes.filter (fun r => r.org_id == B) = db.nodes.filter (fun r => r.org_id == B) ∧
      db'.edges = db.edges) ∧
    (∀ db' row, updateEdge db A edgeId userId userAgent clientIp ebody ts = some (db', row) →
      db'.edges.filter (fun e => e.org_id == B) = db.edges.filter (fun e => e.org_id == B) ∧
      db'.nodes = db.nodes) ∧
    (∀ db' res, deleteNode db A nodeId = some (db', res) →
      db'.nodes.filter (fun r => r.org_id == B) = db.nodes.filter (fun r => r.org_id == B) ∧
      db'.edges.filter (fun e => e.org_id == B) = db.edges.filter (fun e => e.org_id == B)) ∧
    (∀ db', deleteEdge db A edgeId = some db' →
      db'.edges.filter (fun e => e.org_id == B) = db.edges.filter (fun e => e.org_id == B) ∧
      db'.nodes = db.nodes) ∧
    ((∀ e ∈ db.edges, ¬(e.id = edgeId ∧ e.org_id = A)) →
      getEdge db A edgeId = GetEdgeResp.notFound edgeId A ∧
      getEdge db A edgeId = getEdge emptyDB A edgeId) ∧
    (kvNodeGet kv A nodeId = none → (∀ r ∈ db.nodes, ¬(r.id = nodeId ∧ r.org_id = A)) →
      (getNode kv db A nodeId).1 = GetNodeResp.notFound ∧
      (getNode kv db A nodeId).1 = (getNode [] emptyDB A nodeId).1) := by
  refine ⟨?_, ?_, ?_, ?_, ?_, ?_⟩
  · -- updateNode
    intro db' row hup
    unfold updateNode at hup
    rcases hfind : findNode db nodeId A with _ | ex
    · rw [hfind] at hup; simp at hup
    · rw [hfind] at hup
      simp only [Option.some.injEq, Prod.mk.injEq] at hup
      obtain ⟨hdb, -⟩ := hup
      subst hdb
      refine ⟨?_, rfl⟩
      apply filter_map_eq_of_fix
      intro r _
      refine ⟨by split <;> rfl, ?_⟩
      intro hp
      have hB : r.org_id = B := by simpa using hp
      have hA : (r.org_id == A) = false := by
        rw [hB]; exact beq_eq_false_iff_ne.mpr (Ne.symm hAB)
      simp [hA]
  · -- updateEdge
    intro db' row hup
    unfold updateEdge at hup
    rcases hfind : findEdge db edgeId A with _ | ex
    · rw [hfind] at hup; simp at hup
    · rw [hfind] at hup
      simp only [Option.some.injEq, Prod.mk.injEq] at hup
      obtain ⟨hdb, -⟩ := hup
      subst hdb
      refine ⟨?_, rfl⟩
      apply filter_map_eq_of_fix
      intro e _
      refine ⟨by split <;> rfl, ?_⟩
      intro hp
      have hB : e.org_id = B := by simpa using hp
      have hA : (e.org_id == A) = false := by
        rw [hB]; exact beq_eq_false_iff_ne.mpr (Ne.symm hAB)
      simp [hA]
  · -- deleteNode
    intro db' res hdel
    unfold deleteNode at hdel
    rcases hfind : findNode db nodeId A with _ | ex
    · rw [hfind] at hdel; simp at hdel
    · rw [hfind] at hdel
      simp only [Option.some.injEq, Prod.mk.injEq] at hdel
      obtain ⟨hdb, -⟩ := hdel
      subst hdb
      constructor
      · -- nodes: the edge-deleting `if` never touches `nodes`
        split
        all_goals
          apply filter_filter_of_imp
          intro r _ hp
          have hB : r.org_id = B := by simpa using hp
          have hA : (r.org_id == A) = false := by
            rw [hB]; exact beq_eq_false_iff_ne.mpr (Ne.symm hAB)
          simp [hA]
      · -- edges: within the `if`, only rows with `org_id = A` are deleted
        split
        · apply filter_filter_of_imp
          intro e _ hp
          have hB : e.org_id = B := by simpa using hp
          have hA : (e.org_id == A) = false := by
            rw [hB]; exact beq_eq_false_iff_ne.mpr (Ne.symm hAB)
          simp [hA]
        · rfl
  · -- deleteEdge
    intro db' hdel
    unfold deleteEdge at hdel
    rcases hfind : findEdge db edgeId A with _ | ex
    · rw [hfind] at hdel; simp at hdel
    · rw [hfind] at hdel
      simp only [Option.some.injEq] at hdel
      subst hdel
      refine ⟨?_, rfl⟩
      apply filter_filter_of_imp
      intro e _ hp
      have hB : e.org_id = B := by simpa using hp
      have hA : (e.org_id == A) = false := by
        rw [hB]; exact beq_eq_false_iff_ne.mpr (Ne.symm hAB)
      simp [hA]
  · -- getEdge: absent in org A means the constant 404, as on the empty store
    intro habs
    have hfind : findEdge db edgeId A = none := by
      unfold findEdge
      rw [List.find?_eq_none]
      intro e he
      simpa using habs e he
    constructor
    · unfold getEdge; rw [hfind]
    · unfold getEdge; rw [hfind]; rfl
  · -- getNode: no cache entry and no row in org A means 404, as on empty stores
    intro hkv habs
    have hfind : findNode db nodeId A = none := by
      unfold findNode
      rw [List.find?_eq_none]
      intro r hr
      simpa using habs r hr
    constructor
    · unfold getNode; rw [hkv, hfind]
    · unfold getNode; rw [hkv, hfind]; rfl

/-- Witness for C1 at a concrete input: with orgs `a ≠ b` sharing id `n1` and
the edge `e1` existing only in org `b`, deleting `n1` through org `a` leaves
org `b`'s rows unchanged, and reading `e1` through org `a` is the same 404 as
on an empty store. -/
theorem tenant_isolation_ops_witness :
    (∀ db' res, deleteNode isoDB "a" "n1" = some (db', res) →
      db'.nodes.filter (fun r => r.org_id == "b") = isoDB.nodes.filter (fun r => r.org_id == "b") ∧
      db'.edges.filter (fun e => e.org_id == "b") = isoDB.edges.filter (fun e => e.org_id == "b")) ∧
    (getEdge isoDB "a" "e1" = GetEdgeResp.notFound "e1" "a" ∧
      getEdge isoDB "a" "e1" = getEdge emptyDB "a" "e1") := by
  have h := tenant_isolation_ops isoDB [] "a" "b" (by decide) "n1" "e1" "u" "ua" "ip" "T1"
    { id := none, type := none, properties := none } { relationship_type := none, properties := none }
  exact ⟨h.2.2.1, h.2.2.2.2.1 (by decide)⟩

end IsolationClaims

section UpsertClaims

/-- A map that never changes the selection predicate leaves `any` unchanged. -/
lemma any_map_pred {α : Type} (c : α → Bool) (f : α → α) (l : List α)
    (h : ∀ a, c (f a) = c a) : (l.map f).any c = l.any c := by
  induction l with
  | nil => rfl
  | cons x xs ih => simp [List.any_cons, h x, ih]

/-- A conditional rewrite whose guard is everywhere false is the identity. -/
lemma map_if_eq_self {α : Type} (c : α → Bool) (g : α → α) (l : List α)
    (h : ∀ a ∈ l, c a = false) :
    (l.map fun a => if c a then g a else a) = l := by
  induction l with
  | nil => rfl
  | cons x xs ih => simp [h x (by simp), ih (fun a ha => h a (by simp [ha]))]

/-- A guard-preserving idempotent conditional rewrite is idempotent on
lists. -/
lemma map_if_idem {α : Type} (c : α → Bool) (g : α → α) (l : List α)
    (hc : ∀ a, c (g a) = c a) (hg : ∀ a, g (g a) = g a) :
    ((l.map fun a => if c a then g a else a).map fun a => if c a then g a else a) =
      l.map fun a => if c a then g a else a := by
  induction l with
  | nil => rfl
  | cons x xs ih =>
    simp only [List.map_cons, ih, List.cons.injEq, and_true]
    by_cases hx : c x = true
    · simp [hx, hc, hg]
    · have hx' : c x = false := by simpa using hx
      simp [hx']

/-- A map that never changes the selection predicate commutes with
`find?`. -/
lemma find?_map_pred {α : Type} (c : α → Bool) (f : α → α) (l : List α)
    (h : ∀ a, c (f a) = c a) : (l.map f).find? c = (l.find? c).map f := by
  induction l with
  | nil => rfl
  | cons x xs ih =>
    cases hx : c x with
    | true => simp [List.find?_cons, h x, hx]
    | false => simp [List.find?_cons, h x, hx, ih]

/-- The node conflict update keeps the key columns of the existing row. -/
lemma nodeConflictUpdate_key (r row : NodeRow) :
    ((nodeConflictUpdate r row).id == row.id && (nodeConflictUpdate r row).org_id == row.org_id)
      = (r.id == row.id && r.org_id == row.org_id) := rfl

/-- On a key match the node conflict update replaces the whole row. -/
lemma nodeConflictUpdate_eq_row (r row : NodeRow) (hid : r.id = row.id)
    (horg : r.org_id = row.org_id) : nodeConflictUpdate r row = row := by
  cases r; cases row; simp_all [nodeConflictUpdate]

/-- The node conflict update is idempotent. -/
lemma nodeConflictUpdate_idem (r row : NodeRow) :
    nodeConflictUpdate (nodeConflictUpdate r row) row = nodeConflictUpdate r row := rfl

/-- The node upsert is idempotent. -/
lemma upsertNode_idem (db : DB) (row : NodeRow) :
    upsertNode (upsertNode db row) row = upsertNode db row := by
  unfold upsertNode
  by_cases hany : (db.nodes.any fun r => r.id == row.id && r.org_id == row.org_id) = true
  · rw [if_pos hany]
    have hany2 : (((db.nodes.map fun r =>
        if r.id == row.id && r.org_id == row.org_id then nodeConflictUpdate r row else r)).any
          fun r => r.id == row.id && r.org_id == row.org_id) = true := by
      rw [any_map_pred _ _ _ (fun r => by
        by_cases hr : (r.id == row.id && r.org_id == row.org_id) = true
        · simp [hr, nodeConflictUpdate_key]
        · simp [hr])]
      exact hany
    rw [if_pos hany2]
    simp only [DB.mk.injEq, and_true]
    exact map_if_idem _ _ _ (fun r => nodeConflictUpdate_key r row)
      (fun r => nodeConflictUpdate_idem r row)
  · rw [if_neg hany]
    have hfalse : ∀ r ∈ db.nodes, (r.id == row.id && r.org_id == row.org_id) = false := by
      intro r hr
      by_contra hne
      exact hany (List.any_eq_true.mpr ⟨r, hr, by simpa using hne⟩)
    have hany2 : (((db.nodes ++ [row])).any fun r => r.id == row.id && r.org_id == row.org_id)
        = true := by
      simp [List.any_append]
    rw [if_pos hany2]
    simp only [DB.mk.injEq, and_true]
    rw [List.map_append, map_if_eq_self _ _ _ hfalse]
    simp [nodeConflictUpdate_eq_row row row rfl rfl]

/-- C5 — Create-as-UPSERT idempotence: issuing the same node-create request
twice yields exactly the resulting durable store and response row of issuing
it once (in particular no duplicate row is created), and a `POST` whose id
already exists in the org acts as an update: the row count is unchanged and
the stored row afterwards is the newly supplied one. -/
theorem createNode_upsert_idempotent (db : DB) (orgId userId userAgent clientIp : String)
    (body : NodeBody) (ts genId : String) :
    (createNode (createNode db orgId userId userAgent clientIp body ts genId).1
        orgId userId userAgent clientIp body ts genId =
      createNode db orgId userId userAgent clientIp body ts genId) ∧
    (∀ ex, findNode db (body.id.getD genId) orgId = some ex →
      (createNode db orgId userId userAgent clientIp body ts genId).1.nodes.length
          = db.nodes.length ∧
      findNode (createNode db orgId userId userAgent clientIp body ts genId).1
          (body.id.getD genId) orgId
        = some (createNode db orgId userId userAgent clientIp body ts genId).2) := by
  constructor
  · unfold createNode
    simp only [Prod.mk.injEq, and_true]
    exact upsertNode_idem db _
  · intro ex hex
    have hp := List.find?_some hex
    have hmem := List.mem_of_find?_eq_some hex
    obtain ⟨hid, horg⟩ : ex.id = body.id.getD genId ∧ ex.org_id = orgId := by
      simpa using hp
    simp only [createNode, upsertNode]
    have hany : (db.nodes.any fun r =>
        r.id == body.id.getD genId && r.org_id == orgId) = true :=
      List.any_eq_true.mpr ⟨ex, hmem, hp⟩
    rw [if_pos hany]
    constructor
    · simp
    · unfold findNode
      rw [find?_map_pred _ _ _ (fun r => by
        by_cases hr : (r.id == body.id.getD genId && r.org_id == orgId) = true
        · rw [if_pos hr]; rfl
        · rw [if_neg hr])]
      unfold findNode at hex
      rw [hex]
      simp only [Option.map_some, Option.map_some', Option.some.injEq]
      rw [if_pos hp]
      exact nodeConflictUpdate_eq_row ex _ hid horg

/-- Witness for C5 at a concrete input: re-POSTing id `n1` into org `a` on
the fixture store keeps the row count at 2 and stores the new row. -/
theorem createNode_upsert_idempotent_witness :
    (createNode isoDB "a" "u2" "ua2" "ip2"
        { id := some "n1", type := some "doc", properties := none } "T9" "g9").1.nodes.length
      = isoDB.nodes.length ∧
    findNode (createNode isoDB "a" "u2" "ua2" "ip2"
        { id := some "n1", type := some "doc", properties := none } "T9" "g9").1 "n1" "a"
      = some (createNode isoDB "a" "u2" "ua2" "ip2"
        { id := some "n1", type := some "doc", properties := none } "T9" "g9").2 :=
  (createNode_upsert_idempotent isoDB "a" "u2" "ua2" "ip2"
    { id := some "n1", type := some "doc", properties := none } "T9" "g9").2 rowA (by decide)

end UpsertClaims

section AuditClaims

/-- C4 — Audit immutability (claimed): `created_at` / `created_by` are set at
first creation and never altered by later mutations of the same
`(id, org_id)`.  The code violates this: the node upsert's
`ON CONFLICT ... DO UPDATE` branch sets `created_at = excluded.created_at`
and `created_by = excluded.created_by`, so a repeated `POST` of id `n1` by a
different principal at a later time overwrites both.  This theorem evaluates
the code at that failing input (`PUT` update, by contrast, preserves both
fields). -/
theorem createNode_conflict_overwrites_creation_audit :
    (findNode (createNode emptyDB "acme" "alice" "ua" "ip"
        { id := some "n1", type := some "user", properties := none } "T1" "g1").1
        "n1" "acme").map (fun r => (r.created_by, r.created_at)) = some ("alice", "T1") ∧
    (findNode (createNode (createNode emptyDB "acme" "alice" "ua" "ip"
          { id := some "n1", type := some "user", properties := none } "T1" "g1").1
        "acme" "bob" "ua" "ip"
        { id := some "n1", type := some "user", properties := none } "T2" "g2").1
        "n1" "acme").map (fun r => (r.created_by, r.created_at)) = some ("bob", "T2") ∧
    (∀ db' row, updateNode (createNode emptyDB "acme" "alice" "ua" "ip"
          { id := some "n1", type := some "user", properties := none } "T1" "g1").1
        "acme" "n1" "bob" "ua" "ip"
        { id := none, type := none, properties := none } "T2" = some (db', row) →
      (findNode db' "n1" "acme").map (fun r => (r.created_by, r.created_at))
        = some ("alice", "T1")) := by
  refine ⟨by decide, by decide, ?_⟩
  intro db' row h
  have hdb : db' = ((updateNode (createNode emptyDB "acme" "alice" "ua" "ip"
      { id := some "n1", type := some "user", properties := none } "T1" "g1").1
      "acme" "n1" "bob" "ua" "ip"
      { id := none, type := none, properties := none } "T2").map Prod.fst).getD emptyDB := by
    rw [h]; rfl
  subst hdb
  decide

end AuditClaims

section DeleteCountClaims

/-- C10 — Node deletion edge count over self-loops: the `deleted_edges` field
of a successful `DELETE /:org/nodes/:id` equals the length of the `UNION ALL`
of the `from_node = id` rows and the `to_node = id` rows within the org, so a
self-loop on the deleted node is counted twice; on the concrete store whose
only incident edge is such a self-loop the response reports `deleted_edges =
2` while the single edge row (and nothing else) is deleted. -/
theorem deleteNode_union_all_count (db : DB) (orgId nodeId : String)
    (db' : DB) (res : DeleteNodeResult)
    (h : deleteNode db orgId nodeId = some (db', res)) :
    res.deleted_edges =
      (db.edges.filter (fun e => e.from_node == nodeId && e.org_id == orgId)).length +
      (db.edges.filter (fun e => e.to_node == nodeId && e.org_id == orgId)).length ∧
    deleteNode loopDB "a" "n1" =
      some ({ nodes := [], edges := [] },
        { deleted := "n1", org_id := "a", deleted_edges := 2 }) := by
  refine ⟨?_, by decide⟩
  unfold deleteNode at h
  rcases hfind : findNode db nodeId orgId with _ | ex
  · rw [hfind] at h; simp at h
  · rw [hfind] at h
    simp only [Option.some.injEq, Prod.mk.injEq] at h
    obtain ⟨-, hres⟩ := h
    rw [← hres]
    simp [List.length_append]

/-- Witness for C10 at the concrete self-loop store: `deleted_edges = 2`
equals the sum of the two incident filters. -/
theorem deleteNode_union_all_count_witness :
    ({ deleted := "n1", org_id := "a", deleted_edges := 2 } : DeleteNodeResult).deleted_edges =
      (loopDB.edges.filter (fun e => e.from_node == "n1" && e.org_id == "a")).length +
      (loopDB.edges.filter (fun e => e.to_node == "n1" && e.org_id == "a")).length :=
  (deleteNode_union_all_count loopDB "a" "n1" { nodes := [], edges := [] }
    { deleted := "n1", org_id := "a", deleted_edges := 2 } (by decide)).1

end DeleteCountClaims

section VectorizationClaims

/-- C8 — Vectorization is best-effort with respect to the durable store: when
the edge body requests vectorization (non-empty chunk list) and the embedding
call fails or the vector-index upsert fails, `createEdge` answers 500 while
the durable store holds exactly the upserted edge row — the same store a
fully successful run produces — and the vector index is untouched. -/
theorem createEdge_failure_preserves_ds (db : DB) (vx : List VxPoint)
    (orgId userId userAgent clientIp : String) (body : EdgeBody) (ts genId : String)
    (epRes : Except String (List Int)) (vxOk : Bool)
    (hchunks : buildVectorChunks (body.properties.getD []) ≠ [])
    (hfail : (∃ msg, epRes = .error msg) ∨ vxOk = false) :
    (createEdge db vx orgId userId userAgent clientIp body ts genId epRes vxOk).status = 500 ∧
    (createEdge db vx orgId userId userAgent clientIp body ts genId epRes vxOk).db =
      upsertEdge db
        { id := body.id.getD genId
          org_id := orgId
          from_node := body.from_node
          to_node := body.to_node
          relationship_type := body.relationship_type.getD "related"
          properties := body.properties.getD []
          created_at := ts
          updated_at := ts
          created_by := userId
          updated_by := userId
          user_agent := userAgent
          client_ip := clientIp } ∧
    (∀ emb, (createEdge db vx orgId userId userAgent clientIp body ts genId epRes vxOk).db =
      (createEdge db vx orgId userId userAgent clientIp body ts genId (.ok emb) true).db) ∧
    (createEdge db vx orgId userId userAgent clientIp body ts genId epRes vxOk).vx = vx := by
  have hlen : (buildVectorChunks (body.properties.getD [])).length > 0 :=
    List.length_pos.mpr hchunks
  have hsucc : ∀ emb : List Int,
      (createEdge db vx orgId userId userAgent clientIp body ts genId (.ok emb) true).db =
        upsertEdge db
          { id := body.id.getD genId, org_id := orgId, from_node := body.from_node,
            to_node := body.to_node,
            relationship_type := body.relationship_type.getD "related",
            properties := body.properties.getD [], created_at := ts, updated_at := ts,
            created_by := userId, updated_by := userId, user_agent := userAgent,
            client_ip := clientIp } := by
    intro emb
    simp only [createEdge]
    rw [if_pos hlen]
    simp
  have hfailres : createEdge db vx orgId userId userAgent clientIp body ts genId epRes vxOk =
      { status := 500,
        db := upsertEdge db
          { id := body.id.getD genId, org_id := orgId, from_node := body.from_node,
            to_node := body.to_node,
            relationship_type := body.relationship_type.getD "related",
            properties := body.properties.getD [], created_at := ts, updated_at := ts,
            created_by := userId, updated_by := userId, user_agent := userAgent,
            client_ip := clientIp },
        vx := vx,
        response := none } := by
    rcases hfail with ⟨msg, hmsg⟩ | hvx
    · subst hmsg
      simp only [createEdge]
      rw [if_pos hlen]
    · subst hvx
      cases epRes with
      | error msg =>
        simp only [createEdge]
        rw [if_pos hlen]
      | ok emb0 =>
        simp only [createEdge]
        rw [if_pos hlen]
        simp
  rw [hfailres]
  refine ⟨rfl, rfl, ?_, rfl⟩
  intro emb
  rw [hsucc emb]

/-- Witness for C8 at a concrete input: a failing embedding call on the
vectorizing body leaves the upserted edge row `e4` in the store and answers
500. -/
theorem createEdge_failure_preserves_ds_witness :
    (createEdge emptyDB [] "a" "u" "ua" "ip" vecBody "T" "g" (.error "boom") true).status = 500 ∧
    (createEdge emptyDB [] "a" "u" "ua" "ip" vecBody "T" "g" (.error "boom") true).vx = [] := by
  have h := createEdge_failure_preserves_ds emptyDB [] "a" "u" "ua" "ip" vecBody "T" "g"
    (.error "boom") true (by decide) (Or.inl ⟨"boom", rfl⟩)
  exact ⟨h.1, h.2.2.2⟩

end VectorizationClaims

section RoutingClaims

/-- C9 (as stated) fails: a matched pattern with an unsupported method does
answer 404, not 405.  `/acme/nodes` matches the pattern `/:orgId/nodes`, but
for method `DELETE` the dispatcher's `handleRequest` finds no handler and
returns `undefined`, so the fetch entry point falls through to its literal
`404 Not Found` response; the 405 branch of `authenticate` is never
reached. -/
theorem matched_pattern_unsupported_method_yields_404 :
    (matchRoute "/acme/nodes").isSome = true ∧
    fetchRoute "/acme/nodes" "DELETE" = FetchOutcome.notFoundResp ∧
    FetchOutcome.earlyStatus (fetchRoute "/acme/nodes" "DELETE") = some 404 ∧
    some 404 ≠ some 405 := by decide

/-- C9 amended — dispatch statuses: an unmatched path yields the 404
response; a matched pattern whose method table has no entry for the request
method also yields the 404 response (`handleRequest` returns `undefined`
before `authenticate` runs); and whenever a request is dispatched, the
routing re-check inside `authenticate` necessarily proceeds with the same
required permission, so its 405 branch is unreachable. -/
theorem route_dispatch_statuses (path method : String) :
    (matchRoute path = none → fetchRoute path method = FetchOutcome.notFoundResp) ∧
    (∀ pat params, matchRoute path = some (pat, params) → routeLookup pat method = none →
      fetchRoute path method = FetchOutcome.notFoundResp) ∧
    (∀ pat params perm, fetchRoute path method = FetchOutcome.dispatched pat params perm →
      authRouteCheck path method = AuthRouteDecision.proceed perm) := by
  refine ⟨?_, ?_, ?_⟩
  · intro hm
    unfold fetchRoute handleRequest
    rw [hm]
  · intro pat params hm hl
    unfold fetchRoute handleRequest
    rw [hm]
    simp [hl]
  · intro pat params perm hd
    unfold fetchRoute handleRequest at hd
    unfold authRouteCheck
    rcases hm : matchRoute path with _ | ⟨pat0, params0⟩
    · rw [hm] at hd; simp at hd
    · rw [hm] at hd
      simp only [] at hd
      rcases hl : routeLookup pat0 method with _ | found
      · rw [hl] at hd; simp at hd
      · rw [hl] at hd
        simp only [FetchOutcome.dispatched.injEq] at hd
        obtain ⟨h1, -, h3⟩ := hd
        simp only []
        rw [hl]
        simp only []
        rw [h3]

/-- Witness for C9 (amended) at a concrete input: `PATCH /acme/nodes`
matches the node-collection pattern, has no handler, and gets the 404
response. -/
theorem route_dispatch_statuses_witness :
    fetchRoute "/acme/nodes" "PATCH" = FetchOutcome.notFoundResp :=
  (route_dispatch_statuses "/acme/nodes" "PATCH").2.1 "/:orgId/nodes" [("orgId", "acme")]
    (by decide) (by decide)

end RoutingClaims

section TraversalDepthClaims

mutual
/-- Path-length invariant of `traverseNode`: if the current path has exactly
`currentDepth + 1` ids, the depth has not exceeded the limit, and every
already-collected path is within the bound, then every collected path stays
within `maxDepth + 1` ids. -/
theorem traverseNode_paths_bound (db : DB) (kv : KvAdj) (nodeId : String)
    (currentDepth maxDepth : Nat) (st : TravAcc) (currentPath : List String)
    (orgId : String) (relationshipTypes : Option (List String))
    (h1 : currentPath.length = currentDepth + 1) (h2 : currentDepth ≤ maxDepth)
    (h3 : ∀ p ∈ st.paths, p.length ≤ maxDepth + 1) :
    ∀ p ∈ (traverseNode db kv nodeId currentDepth maxDepth st currentPath orgId
        relationshipTypes).paths, p.length ≤ maxDepth + 1 := by
  rw [traverseNode]
  split
  · split
    · intro p hp
      rcases List.mem_append.mp hp with h | h
      · exact h3 p h
      · have hpeq : p = currentPath := by simpa using h
        subst hpeq
        omega
    · exact h3
  · rename_i hneg
    have hd : currentDepth < maxDepth := by
      by_contra hge
      exact hneg (Or.inl (Nat.le_of_not_lt hge))
    rcases hfn : findNode db nodeId orgId with _ | n <;>
      rcases hkv : kvAdjGet kv orgId nodeId with _ | entries <;>
        simp only [hfn, hkv]
    · exact h3
    · exact traverseChildren_paths_bound _ _ _ _ _ _ _ _ _ h1 (by omega) h3
    · exact h3
    · exact traverseChildren_paths_bound _ _ _ _ _ _ _ _ _ h1 (by omega) h3
termination_by (maxDepth + 1 - currentDepth, 0)
decreasing_by
  · simp_wf; omega
  · simp_wf; omega

/-- Path-length invariant of `traverseChildren`. -/
theorem traverseChildren_paths_bound (db : DB) (kv : KvAdj) (children : List String)
    (childDepth maxDepth : Nat) (st : TravAcc) (currentPath : List String)
    (orgId : String) (relationshipTypes : Option (List String))
    (h1 : currentPath.length = childDepth) (h2 : childDepth ≤ maxDepth)
    (h3 : ∀ p ∈ st.paths, p.length ≤ maxDepth + 1) :
    ∀ p ∈ (traverseChildren db kv children childDepth maxDepth st currentPath orgId
        relationshipTypes).paths, p.length ≤ maxDepth + 1 := by
  cases children with
  | nil =>
    rw [traverseChildren]
    exact h3
  | cons c rest =>
    rw [traverseChildren]
    exact traverseChildren_paths_bound db kv rest childDepth maxDepth _ currentPath orgId
      relationshipTypes h1 h2
      (traverseNode_paths_bound db kv c childDepth maxDepth st (currentPath ++ [c]) orgId
        relationshipTypes (by simp [h1]) h2 h3)
termination_by (maxDepth + 1 - childDepth, children.length + 1)
decreasing_by
  · simp_wf; omega
  · simp_wf; omega
end

/-- C7 — Traversal depth bound: with `max_depth = d` (defaulting to 3 when
the body omits it), every path in the returned `paths` array has at most
`d + 1` node ids. -/
theorem traverseGraph_path_length_bound (db : DB) (kv : KvAdj) (orgId startNode : String)
    (maxDepth? : Option Nat) (relationshipTypes : Option (List String)) :
    ∀ p ∈ (traverseGraph db kv orgId startNode maxDepth? relationshipTypes).paths,
      p.length ≤ maxDepth?.getD 3 + 1 := by
  intro p hp
  exact traverseNode_paths_bound db kv startNode 0 (maxDepth?.getD 3)
    { visited := [], nodes := [], edges := [], paths := [] } [startNode] orgId
    relationshipTypes (by simp) (Nat.zero_le _) (by simp) p hp

/-- Witness for C7 at a concrete input: the traversal of the fixture graph
with `max_depth = 1` emits the path `[n1, n2]`, whose length 2 is within the
bound `1 + 1`. -/
theorem traverseGraph_path_length_bound_witness :
    ["n1", "n2"] ∈ (traverseGraph travDB travKv "a" "n1" (some 1) none).paths ∧
    (["n1", "n2"] : List String).length ≤ (some 1 : Option Nat).getD 3 + 1 := by
  have hmem : ["n1", "n2"] ∈ (traverseGraph travDB travKv "a" "n1" (some 1) none).paths := by
    simp [traverseGraph, traverseNode, traverseChildren, kvAdjGet, findNode,
      traverseEdgeLookup, travDB, travKv, rowA, travEdge, edgeB]
  exact ⟨hmem, traverseGraph_path_length_bound travDB travKv "a" "n1" (some 1) none
    ["n1", "n2"] hmem⟩

end TraversalDepthClaims

section TraversalEdgeClaims

/-- At or beyond the depth limit `traverseNode` collects no edges. -/
lemma traverseNode_edges_at_max (db : DB) (kv : KvAdj) (nodeId : String)
    (currentDepth maxDepth : Nat) (st : TravAcc) (currentPath : List String)
    (orgId : String) (relationshipTypes : Option (List String))
    (h : currentDepth ≥ maxDepth) :
    (traverseNode db kv nodeId currentDepth maxDepth st currentPath orgId
      relationshipTypes).edges = st.edges := by
  rw [traverseNode]
  rw [if_pos (Or.inl h)]
  split <;> rfl

/-- At or beyond the depth limit `traverseChildren` collects no edges. -/
lemma traverseChildren_edges_at_max (db : DB) (kv : KvAdj) (children : List String)
    (childDepth maxDepth : Nat) (st : TravAcc) (currentPath : List String)
    (orgId : String) (relationshipTypes : Option (List String))
    (h : childDepth ≥ maxDepth) :
    (traverseChildren db kv children childDepth maxDepth st currentPath orgId
      relationshipTypes).edges = st.edges := by
  induction children generalizing st currentPath with
  | nil => rw [traverseChildren]
  | cons c rest ih =>
    rw [traverseChildren]
    rw [ih]
    exact traverseNode_edges_at_max db kv c childDepth maxDepth st (currentPath ++ [c]) orgId
      relationshipTypes h

/-- C6 (as stated) fails: on a store whose only org-`a` edge leaves `n1` but
whose KV adjacency cache is empty, the traversal collects no edges at all,
while the direct durable-store query returns that edge — edge discovery does
depend on the cached adjacency list. -/
theorem traverse_direct_query_counterexample :
    (traverseGraph travDB [] "a" "n1" (some 3) none).edges = [] ∧
    dsOutgoingEdges travDB "n1" "a" none = [travEdge] ∧
    (traverseGraph travDB [] "a" "n1" (some 3) none).edges ≠
      dsOutgoingEdges travDB "n1" "a" none := by
  have h1 : (traverseGraph travDB [] "a" "n1" (some 3) none).edges = [] := by
    simp [traverseGraph, traverseNode, kvAdjGet, findNode, travDB, rowA]
  refine ⟨h1, by decide, ?_⟩
  rw [h1]
  decide

/-- C6 amended — Traversal edge discovery is driven by the KV adjacency
cache: on entry to the unvisited start node below the depth limit, the edges
appended are exactly the durable-store lookups keyed by the cached
`adj:out:<org>:<node>` entries that pass the relationship-type inclusion
list (one `from_node/to_node/relationship_type/org_id` query per entry); in
particular, when the adjacency key is absent, no edge is discovered at any
depth, even if the durable store holds outgoing edges of the node. -/
theorem traverse_edges_via_adjacency_cache (db : DB) (kv : KvAdj) (orgId nodeId : String)
    (types : Option (List String)) :
    (traverseGraph db kv orgId nodeId (some 1) types).edges =
      (((kvAdjGet kv orgId nodeId).getD []).filter (fun a =>
          match types with
          | some ts => ts.contains a.type
          | none => true)).filterMap (fun a => traverseEdgeLookup db nodeId a orgId) ∧
    (kvAdjGet kv orgId nodeId = none →
      ∀ md, (traverseGraph db kv orgId nodeId md types).edges = []) := by
  constructor
  · unfold traverseGraph
    simp only [Option.getD_some]
    rw [traverseNode]
    rw [if_neg (by simp)]
    rcases hfn : findNode db nodeId orgId with _ | n <;>
      rcases hkv : kvAdjGet kv orgId nodeId with _ | entries <;>
        simp only [hfn, hkv]
    · simp
    · rw [traverseChildren_edges_at_max db kv _ (0 + 1) 1 _ _ orgId types (by omega)]
      simp only [List.filterMap_map, Option.getD_some]
      rfl
    · simp
    · rw [traverseChildren_edges_at_max db kv _ (0 + 1) 1 _ _ orgId types (by omega)]
      simp only [List.filterMap_map, Option.getD_some]
      rfl
  · intro hnone md
    unfold traverseGraph
    rw [traverseNode]
    by_cases h0 : (0 : Nat) ≥ md.getD 3
    · rw [if_pos (Or.inl h0)]
      split <;> rfl
    · rw [if_neg (by simpa using h0)]
      rcases hfn : findNode db nodeId orgId with _ | n <;> simp only [hfn, hnone]

/-- Witness for C6 (amended) at a concrete input: with the adjacency key of
`n1` absent, the traversal of the fixture store collects no edges. -/
theorem traverse_edges_via_adjacency_cache_witness :
    (traverseGraph travDB [] "a" "n1" (some 5) none).edges = [] :=
  (traverse_edges_via_adjacency_cache travDB [] "a" "n1" none).2 (by decide) (some 5)

end TraversalEdgeClaims

section RoundTripClaims

/-- A pointwise-identity map is the identity. -/
lemma map_eq_self_mem {α : Type} (f : α → α) (l : List α) (h : ∀ a ∈ l, f a = a) :
    l.map f = l := by
  induction l with
  | nil => rfl
  | cons x xs ih => simp [h x (by simp), ih (fun a ha => h a (by simp [ha]))]

/-- Replacing a row that is already stored (keys unique) is a no-op. -/
lemma insertOrReplaceNode_self (db : DB) (row : NodeRow) (hmem : row ∈ db.nodes)
    (huniq : ∀ s ∈ db.nodes, s.id = row.id → s.org_id = row.org_id → s = row) :
    insertOrReplaceNode db row = db := by
  unfold insertOrReplaceNode
  have hany : (db.nodes.any fun r => r.id == row.id && r.org_id == row.org_id) = true :=
    List.any_eq_true.mpr ⟨row, hmem, by simp⟩
  rw [if_pos hany]
  have hmap : (db.nodes.map fun r =>
      if r.id == row.id && r.org_id == row.org_id then row else r) = db.nodes := by
    apply map_eq_self_mem
    intro s hs
    by_cases hc : (s.id == row.id && s.org_id == row.org_id) = true
    · rw [if_pos hc]
      obtain ⟨h1, h2⟩ : s.id = row.id ∧ s.org_id = row.org_id := by simpa using hc
      exact (huniq s hs h1 h2).symm
    · rw [if_neg hc]
  rw [hmap]

/-- Replacing an edge row that is already stored (keys unique) is a no-op. -/
lemma insertOrReplaceEdge_self (db : DB) (row : EdgeRow) (hmem : row ∈ db.edges)
    (huniq : ∀ s ∈ db.edges, s.id = row.id → s.org_id = row.org_id → s = row) :
    insertOrReplaceEdge db row = db := by
  unfold insertOrReplaceEdge
  have hany : (db.edges.any fun e => e.id == row.id && e.org_id == row.org_id) = true :=
    List.any_eq_true.mpr ⟨row, hmem, by simp⟩
  rw [if_pos hany]
  have hmap : (db.edges.map fun e =>
      if e.id == row.id && e.org_id == row.org_id then row else e) = db.edges := by
    apply map_eq_self_mem
    intro s hs
    by_cases hc : (s.id == row.id && s.org_id == row.org_id) = true
    · rw [if_pos hc]
      obtain ⟨h1, h2⟩ : s.id = row.id ∧ s.org_id = row.org_id := by simpa using hc
      exact (huniq s hs h1 h2).symm
    · rw [if_neg hc]
  rw [hmap]

/-- Re-reading an exported node and filling the absent fields reproduces the
row, provided its org and provenance fields are non-empty (the `||`
defaulting only fires on absent or empty values). -/
lemma fillImportNode_roundtrip (r : NodeRow) (T u ua ip : String)
    (h : r.org_id ≠ "" ∧ r.created_by ≠ "" ∧ r.updated_by ≠ "" ∧
      r.user_agent ≠ "" ∧ r.client_ip ≠ "") :
    fillImportNode (nodeRowToImport r) T u ua ip = r := by
  obtain ⟨h1, h2, h3, h4, h5⟩ := h
  cases r
  simp_all [fillImportNode, nodeRowToImport, jsOrDefault]

/-- Re-reading an exported edge and filling the absent fields reproduces the
row under the same non-emptiness conditions (plus `updated_at`). -/
lemma fillImportEdge_roundtrip (e : EdgeRow) (T u ua ip : String)
    (h : e.org_id ≠ "" ∧ e.created_by ≠ "" ∧ e.updated_by ≠ "" ∧
      e.user_agent ≠ "" ∧ e.client_ip ≠ "" ∧ e.updated_at ≠ "") :
    fillImportEdge (edgeRowToImport e) T u ua ip = e := by
  obtain ⟨h1, h2, h3, h4, h5, h6⟩ := h
  cases e
  simp_all [fillImportEdge, edgeRowToImport, jsOrDefault]

/-- Importing node records that round-trip to rows already present leaves the
store unchanged. -/
lemma import_nodes_fold_self (db : DB) (rows : List NodeRow) (T u ua ip : String)
    (hfix : ∀ r ∈ rows, fillImportNode (nodeRowToImport r) T u ua ip = r)
    (hmem : ∀ r ∈ rows, r ∈ db.nodes)
    (huniq : ∀ r ∈ db.nodes, ∀ s ∈ db.nodes, s.id = r.id → s.org_id = r.org_id → s = r) :
    (rows.map nodeRowToImport).foldl
      (fun acc n => insertOrReplaceNode acc (fillImportNode n T u ua ip)) db = db := by
  induction rows with
  | nil => rfl
  | cons r rest ih =>
    simp only [List.map_cons, List.foldl_cons]
    rw [hfix r (by simp), insertOrReplaceNode_self db r (hmem r (by simp))
      (huniq r (hmem r (by simp)))]
    exact ih (fun a ha => hfix a (by simp [ha])) (fun a ha => hmem a (by simp [ha]))

/-- Importing edge records that round-trip to rows already present leaves
the store unchanged. -/
lemma import_edges_fold_self (db : DB) (rows : List EdgeRow) (T u ua ip : String)
    (hfix : ∀ e ∈ rows, fillImportEdge (edgeRowToImport e) T u ua ip = e)
    (hmem : ∀ e ∈ rows, e ∈ db.edges)
    (huniq : ∀ e ∈ db.edges, ∀ s ∈ db.edges, s.id = e.id → s.org_id = e.org_id → s = e) :
    (rows.map edgeRowToImport).foldl
      (fun acc e => insertOrReplaceEdge acc (fillImportEdge e T u ua ip)) db = db := by
  induction rows with
  | nil => rfl
  | cons e rest ih =>
    simp only [List.map_cons, List.foldl_cons]
    rw [hfix e (by simp), insertOrReplaceEdge_self db e (hmem e (by simp))
      (huniq e (hmem e (by simp)))]
    exact ih (fun a ha => hfix a (by simp [ha])) (fun a ha => hmem a (by simp [ha]))

/-- C3 (as stated) fails: exporting org `a` (one node, one edge) and
importing the snapshot body into the fresh org `b` leaves org `b` empty —
the snapshot records carry `org_id = a`, and the import fills the path org
only into records that omit it — so `countNodes(b) = 0 ≠ 1 =
countNodes(a)`. -/
theorem export_import_fresh_org_counterexample :
    countNodes loopDB "a" = 1 ∧
    countNodes (importMetadata loopDB "b" "u" "ua" "ip"
        ((exportMetadata loopDB "a" "TS").nodes.map nodeRowToImport)
        ((exportMetadata loopDB "a" "TS").edges.map edgeRowToImport)).1 "b" = 0 ∧
    countNodes (importMetadata loopDB "b" "u" "ua" "ip"
        ((exportMetadata loopDB "a" "TS").nodes.map nodeRowToImport)
        ((exportMetadata loopDB "a" "TS").edges.map edgeRowToImport)).1 "b" ≠
      countNodes loopDB "a" := by decide

/-- C3 amended — Export/import re-upserts each record under its original
org: for any store whose rows carry non-empty org and provenance fields and
whose keys are unique, exporting org `O` and importing the snapshot body
through any target org `T` leaves the durable store unchanged.  Hence
`countNodes(O)` / `countEdges(O)` are preserved with every audit field
intact, the target org `T` gains nothing (the claimed equalities
`countNodes(O') = countNodes(O)`, `countEdges(O') = countEdges(O)` hold only
when `O' = O`), and the reported import counts equal org `O`'s counts. -/
theorem export_import_reupserts_into_source_org (db : DB) (O T ts u ua ip : String)
    (hgoodN : ∀ r ∈ db.nodes, r.org_id ≠ "" ∧ r.created_by ≠ "" ∧ r.updated_by ≠ "" ∧
      r.user_agent ≠ "" ∧ r.client_ip ≠ "")
    (hgoodE : ∀ e ∈ db.edges, e.org_id ≠ "" ∧ e.created_by ≠ "" ∧ e.updated_by ≠ "" ∧
      e.user_agent ≠ "" ∧ e.client_ip ≠ "" ∧ e.updated_at ≠ "")
    (huniqN : ∀ r ∈ db.nodes, ∀ s ∈ db.nodes, s.id = r.id → s.org_id = r.org_id → s = r)
    (huniqE : ∀ e ∈ db.edges, ∀ s ∈ db.edges, s.id = e.id → s.org_id = e.org_id → s = e) :
    (importMetadata db T u ua ip
        ((exportMetadata db O ts).nodes.map nodeRowToImport)
        ((exportMetadata db O ts).edges.map edgeRowToImport)).1 = db ∧
    countNodes (importMetadata db T u ua ip
        ((exportMetadata db O ts).nodes.map nodeRowToImport)
        ((exportMetadata db O ts).edges.map edgeRowToImport)).1 O = countNodes db O ∧
    countEdges (importMetadata db T u ua ip
        ((exportMetadata db O ts).nodes.map nodeRowToImport)
        ((exportMetadata db O ts).edges.map edgeRowToImport)).1 O = countEdges db O ∧
    countNodes (importMetadata db T u ua ip
        ((exportMetadata db O ts).nodes.map nodeRowToImport)
        ((exportMetadata db O ts).edges.map edgeRowToImport)).1 T = countNodes db T ∧
    countEdges (importMetadata db T u ua ip
        ((exportMetadata db O ts).nodes.map nodeRowToImport)
        ((exportMetadata db O ts).edges.map edgeRowToImport)).1 T = countEdges db T ∧
    (importMetadata db T u ua ip
        ((exportMetadata db O ts).nodes.map nodeRowToImport)
        ((exportMetadata db O ts).edges.map edgeRowToImport)).2.imported_nodes
      = countNodes db O ∧
    (importMetadata db T u ua ip
        ((exportMetadata db O ts).nodes.map nodeRowToImport)
        ((exportMetadata db O ts).edges.map edgeRowToImport)).2.imported_edges
      = countEdges db O := by
  have hn : ((db.nodes.filter (fun r => r.org_id == O)).map nodeRowToImport).foldl
      (fun acc n => insertOrReplaceNode acc (fillImportNode n T u ua ip)) db = db :=
    import_nodes_fold_self db _ T u ua ip
      (fun r hr => fillImportNode_roundtrip r T u ua ip (hgoodN r (List.mem_of_mem_filter hr)))
      (fun r hr => List.mem_of_mem_filter hr) huniqN
  have he : ((db.edges.filter (fun e => e.org_id == O)).map edgeRowToImport).foldl
      (fun acc e => insertOrReplaceEdge acc (fillImportEdge e T u ua ip)) db = db :=
    import_edges_fold_self db _ T u ua ip
      (fun e hr => fillImportEdge_roundtrip e T u ua ip (hgoodE e (List.mem_of_mem_filter hr)))
      (fun e hr => List.mem_of_mem_filter hr) huniqE
  have hdb : (importMetadata db T u ua ip
      ((exportMetadata db O ts).nodes.map nodeRowToImport)
      ((exportMetadata db O ts).edges.map edgeRowToImport)).1 = db := by
    simp only [importMetadata, exportMetadata]
    rw [hn, he]
  refine ⟨hdb, by rw [hdb], by rw [hdb], by rw [hdb], by rw [hdb], ?_, ?_⟩
  · simp [importMetadata, exportMetadata, countNodes]
  · simp [importMetadata, exportMetadata, countEdges]

/-- Witness for C3 (amended) at a concrete input: importing org `a`'s
snapshot through org `b` leaves the fixture store unchanged. -/
theorem export_import_reupserts_witness :
    (importMetadata loopDB "b" "u" "ua" "ip"
        ((exportMetadata loopDB "a" "TS").nodes.map nodeRowToImport)
        ((exportMetadata loopDB "a" "TS").edges.map edgeRowToImport)).1 = loopDB :=
  (export_import_reupserts_into_source_org loopDB "a" "b" "TS" "u" "ua" "ip"
    (by decide) (by decide) (by decide) (by decide)).1

end RoundTripClaims
